import Mathlib

/-!
Verification development for the hikari ORM state registry
(`src/hikari/orm/state_registry.py`).

The repository source contains only the abstract interface `IStateRegistry`
(every method is an `abc.abstractmethod` with a docstring); no concrete
implementation is present under `src/`.  The definitions below are therefore
modelled from the specification's data model (§3) and component contracts
(§4), faithful to the spec's words, with the interface docstrings fixing
signatures and lookup conventions.  Entities are identified by natural-number
ids; collections are association-style lists looked up with `List.find?`,
matching the spec's Entity Store contract ("lookup by id", "explicit absent
signal, never throw").
-/

namespace Hikari

/-- Modelled from the spec: a role ("id, guild reference, display/permission
attributes; referenced by zero or more members", §3). -/
structure Role where
  id : Nat
  guildId : Nat
  name : String
  position : Nat
deriving DecidableEq, Repr

/-- Modelled from the spec: presence ("status + activity attributes, owned by
exactly one Member", §3). -/
structure Presence where
  status : String
deriving DecidableEq, Repr

/-- Modelled from the spec: a member ("composite identity (user id + guild id),
owning user reference, ordered set of role references, per-guild presence",
§3).  Role references are stored by id (§9: containment by identifier). -/
structure Member where
  userId : Nat
  guildId : Nat
  roleIds : List Nat
  presence : Option Presence
deriving DecidableEq, Repr

/-- Modelled from the spec: a channel ("id, kind, parent-guild reference
(nullable for DM), last-known-pinned-message timestamp (nullable)", §3), plus
the last-known-activity bookkeeping updated by message parsing (§4.2). -/
structure Channel where
  id : Nat
  kind : Nat
  guildId : Option Nat
  name : String
  lastPinTimestamp : Option Nat
  lastMessageTimestamp : Option Nat
deriving DecidableEq, Repr

/-- Modelled from the spec: a reaction ("(message, emoji) pair with a
non-negative integer count", §3).  The emoji is referenced by its id. -/
structure Reaction where
  emojiId : Nat
  count : Nat
deriving DecidableEq, Repr

/-- Modelled from the spec: a message ("id, channel reference, author
reference, content attributes, ordered/keyed collection of reactions, pin
flag", §3), with the timestamp used for channel activity bookkeeping. -/
structure Message where
  id : Nat
  channelId : Nat
  authorId : Nat
  content : String
  reactions : List Reaction
  pinned : Bool
  timestamp : Nat
deriving DecidableEq, Repr

/-- Modelled from the spec: an emoji ("id (or synthetic key for unicode
emoji), guild reference (null for non-guild/unicode emoji)", §3). -/
structure Emoji where
  id : Nat
  guildId : Option Nat
  name : String
deriving DecidableEq, Repr

/-- Modelled from the spec: a guild ("id, name, ordered role list,
member-by-id mapping, channel-by-id mapping, emoji-by-id mapping,
availability flag", §3). -/
structure Guild where
  id : Nat
  name : String
  roles : List Role
  members : List Member
  channels : List Channel
  emojis : List Emoji
  unavailable : Bool
deriving DecidableEq, Repr

/-- Modelled from the spec: a user ("id, global profile attributes", §3). -/
structure User where
  id : Nat
  username : String
deriving DecidableEq, Repr

/-- Modelled from the spec: the distinguished "self" user ("may be promoted to
a distinguished self user carrying extra OAuth-scoped fields", §3); the
interface types the `me` property as `users.OAuth2User`. -/
structure OAuth2User where
  id : Nat
  username : String
deriving DecidableEq, Repr

/-- Modelled from the spec: the cache state behind `IStateRegistry` — the
Entity Store's containment hierarchy (guild → channels/members/roles/emojis,
§2), the open DM channels, the user table, the message cache
(`IStateRegistry.message_cache`) and the Identity Slot
(`IStateRegistry.me`, nullable, §4.5). -/
structure StateRegistry where
  guilds : List Guild
  dmChannels : List Channel
  users : List User
  messages : List Message
  me : Option OAuth2User
deriving DecidableEq, Repr

/-- The registry before any event has been parsed: every table empty and the
Identity Slot unset. -/
def emptyRegistry : StateRegistry :=
  { guilds := [], dmChannels := [], users := [], messages := [], me := none }

/-- `IStateRegistry.get_guild_by_id`: find a guild by id, `None` if absent. -/
def get_guild_by_id (s : StateRegistry) (gid : Nat) : Option Guild :=
  s.guilds.find? (fun g => g.id == gid)

/-- `IStateRegistry.get_role_by_id`: find a role by (guild id, role id);
`None` if the guild or the role is not cached. -/
def get_role_by_id (s : StateRegistry) (gid rid : Nat) : Option Role :=
  (get_guild_by_id s gid).bind (fun g => g.roles.find? (fun r => r.id == rid))

/-- `IStateRegistry.get_member_by_id`: find a member by (user id, guild id);
`None` if the guild or the member is not cached. -/
def get_member_by_id (s : StateRegistry) (uid gid : Nat) : Option Member :=
  (get_guild_by_id s gid).bind (fun g => g.members.find? (fun m => m.userId == uid))

/-- The guild-side part of `IStateRegistry.get_channel_by_id`: search every
cached guild's channel table, in guild order. -/
def findChannelInGuilds : List Guild → Nat → Option Channel
  | [], _ => none
  | g :: rest, cid =>
    match g.channels.find? (fun c => c.id == cid) with
    | some c => some c
    | none => findChannelInGuilds rest cid

/-- The DM-side part of `IStateRegistry.get_channel_by_id`: search the open
DM channels. -/
def findDmChannel (s : StateRegistry) (cid : Nat) : Option Channel :=
  s.dmChannels.find? (fun c => c.id == cid)

/-- `IStateRegistry.get_channel_by_id` ("Guilds are searched first.  If no
match is found in a guild, then any open DM channels are also checked.  If
nothing is found still, we return `None`."). -/
def get_channel_by_id (s : StateRegistry) (cid : Nat) : Option Channel :=
  match findChannelInGuilds s.guilds cid with
  | some c => some c
  | none => findDmChannel s cid

/-- `IStateRegistry.get_message_by_id`: find a message in the message cache. -/
def get_message_by_id (s : StateRegistry) (mid : Nat) : Option Message :=
  s.messages.find? (fun m => m.id == mid)

/-- `IStateRegistry.get_user_by_id`: find a user in the user table. -/
def get_user_by_id (s : StateRegistry) (uid : Nat) : Option User :=
  s.users.find? (fun u => u.id == uid)

/-- Strip one role reference from a member's role-reference set. -/
def stripRoleFromMember (role : Role) (m : Member) : Member :=
  { m with roleIds := m.roleIds.filter (fun x => x ≠ role.id) }

/-- The per-guild part of the role-deletion cascade: on the owning guild,
drop the role from the role table and strip it from every cached member. -/
def stripRoleFromGuild (role : Role) (g : Guild) : Guild :=
  if g.id = role.guildId then
    { g with
      roles := g.roles.filter (fun r => r.id ≠ role.id),
      members := g.members.map (stripRoleFromMember role) }
  else g

/-- Modelled from the spec: `IStateRegistry.delete_role` — "removes it from
the guild's role table AND strips the reference from every currently cached
member of that guild who held it — this must be done as one logical
operation" (§4.4); here the whole cascade is a single state transition. -/
def delete_role (s : StateRegistry) (role : Role) : StateRegistry :=
  { s with guilds := s.guilds.map (stripRoleFromGuild role) }

/-- Modelled from the spec: `IStateRegistry.delete_guild` — removing a guild
removes its whole containment subtree (channels, members, roles, emojis)
from the Store (§4.4). -/
def delete_guild (s : StateRegistry) (guild : Guild) : StateRegistry :=
  { s with guilds := s.guilds.filter (fun g => g.id ≠ guild.id) }

/-- Look up the reaction entry for an emoji on a list of reactions (the
message's keyed reaction collection). -/
def findReaction (l : List Reaction) (eid : Nat) : Option Reaction :=
  l.find? (fun r => r.emojiId == eid)

/-- The reaction entry for an emoji on a message, `none` when absent. -/
def getReaction (m : Message) (eid : Nat) : Option Reaction :=
  findReaction m.reactions eid

/-- Add one to the first reaction entry matching the emoji, or append a fresh
count-1 entry when none exists. -/
def bumpReaction : List Reaction → Nat → List Reaction
  | [], eid => [{ emojiId := eid, count := 1 }]
  | r :: rest, eid =>
    if r.emojiId = eid then { r with count := r.count + 1 } :: rest
    else r :: bumpReaction rest eid

/-- Subtract one from the first reaction entry matching the emoji, deleting
the entry outright when its count would reach zero. -/
def dropOrDecReaction : List Reaction → Nat → List Reaction
  | [], _ => []
  | r :: rest, eid =>
    if r.emojiId = eid then
      if r.count ≤ 1 then rest else { r with count := r.count - 1 } :: rest
    else r :: dropOrDecReaction rest eid

/-- Modelled from the spec: `IStateRegistry.increment_reaction_count` —
"always either creates a new count-1 reaction entry (first reactor) or
increments an existing one" (§4.4); returns the resulting Reaction. -/
def increment_reaction_count (m : Message) (eid : Nat) : Message × Reaction :=
  let r' : Reaction :=
    match getReaction m eid with
    | some r => { r with count := r.count + 1 }
    | none => { emojiId := eid, count := 1 }
  ({ m with reactions := bumpReaction m.reactions eid }, r')

/-- Modelled from the spec: `IStateRegistry.decrement_reaction_count` — "if
the resulting count is zero, the reaction entry is deleted and the decrement
operation's result communicates reaction-now-absent" (§4.4): the result is
`none` both when the reaction was never present and when the decrement
removed it; otherwise the decremented Reaction. -/
def decrement_reaction_count (m : Message) (eid : Nat) : Message × Option Reaction :=
  match getReaction m eid with
  | none => (m, none)
  | some r =>
    ({ m with reactions := dropOrDecReaction m.reactions eid },
     if r.count ≤ 1 then none else some { r with count := r.count - 1 })

/-- A message's reaction collection is well formed when it is keyed (one entry
per emoji) and every stored count is positive (Invariant 3, §3). -/
def reactionsWF (m : Message) : Prop :=
  (m.reactions.map Reaction.emojiId).Nodup ∧ ∀ r ∈ m.reactions, 0 < r.count

instance (m : Message) : Decidable (reactionsWF m) := by
  unfold reactionsWF
  infer_instance


/-- An already-deserialized channel attribute map (the transport collaborator
delivers such maps, §6); carries the channel id and updatable fields. -/
structure ChannelPayload where
  id : Nat
  kind : Nat
  name : String
deriving DecidableEq, Repr

/-- An already-deserialized guild attribute map carrying the guild id and
updatable fields. -/
structure GuildPayload where
  id : Nat
  name : String
  unavailable : Bool
deriving DecidableEq, Repr

/-- An already-deserialized message attribute map; carries the message id,
its channel and author references, content and timestamp. -/
structure MessagePayload where
  id : Nat
  channelId : Nat
  authorId : Nat
  content : String
  timestamp : Nat
deriving DecidableEq, Repr

/-- An already-deserialized role attribute map. -/
structure RolePayload where
  id : Nat
  name : String
  position : Nat
deriving DecidableEq, Repr

/-- An already-deserialized user attribute map. -/
structure UserPayload where
  id : Nat
  username : String
deriving DecidableEq, Repr

/-- An already-deserialized guild-emoji attribute map. -/
structure EmojiPayload where
  id : Nat
  name : String
deriving DecidableEq, Repr

/-- Apply a channel payload's fields to a cached channel (the Mutation/Diff
Engine "applies the new payload's fields to the live cached instance", §4.3);
identity and containment are untouched. -/
def applyChannelPayload (c : Channel) (p : ChannelPayload) : Channel :=
  { c with kind := p.kind, name := p.name }

/-- Apply a guild payload's fields to a cached guild; the contained
role/member/channel/emoji tables are untouched. -/
def applyGuildPayload (g : Guild) (p : GuildPayload) : Guild :=
  { g with name := p.name, unavailable := p.unavailable }

/-- Apply a message payload's updatable fields to a cached message. -/
def applyMessagePayload (m : Message) (p : MessagePayload) : Message :=
  { m with content := p.content }

/-- Apply a role payload's fields to a cached role. -/
def applyRolePayload (r : Role) (p : RolePayload) : Role :=
  { r with name := p.name, position := p.position }

/-- Rewrite every channel in the store (both guild channels and open DM
channels) through `f`. -/
def mapAllChannels (f : Channel → Channel) (s : StateRegistry) : StateRegistry :=
  { s with
    guilds := s.guilds.map (fun g => { g with channels := g.channels.map f }),
    dmChannels := s.dmChannels.map f }

/-- Replace the channel stored under `cid` (wherever it lives) with `c`. -/
def replaceChannel (s : StateRegistry) (cid : Nat) (c : Channel) : StateRegistry :=
  mapAllChannels (fun c' => if c'.id = cid then c else c') s

/-- Modelled from the spec: `IStateRegistry.update_channel` — "locate the
current cached entity; if absent, return an empty result ...; if present,
clone the pre-mutation state as the old snapshot, apply the new payload's
fields to the live cached instance, and return (old, live)" (§4.3). -/
def update_channel (s : StateRegistry) (p : ChannelPayload) :
    Option (Channel × Channel) × StateRegistry :=
  match get_channel_by_id s p.id with
  | none => (none, s)
  | some old =>
    let upd := applyChannelPayload old p
    (some (old, upd), replaceChannel s p.id upd)

/-- Modelled from the spec: `IStateRegistry.update_guild` — same §4.3
contract as `update_channel`, on the guild table. -/
def update_guild (s : StateRegistry) (p : GuildPayload) :
    Option (Guild × Guild) × StateRegistry :=
  match get_guild_by_id s p.id with
  | none => (none, s)
  | some old =>
    let upd := applyGuildPayload old p
    (some (old, upd),
     { s with guilds := s.guilds.map (fun g => if g.id = p.id then upd else g) })

/-- Modelled from the spec: `IStateRegistry.update_message` — same §4.3
contract, on the message cache ("If the message was not cached, then `None`
is returned instead of a tuple"). -/
def update_message (s : StateRegistry) (p : MessagePayload) :
    Option (Message × Message) × StateRegistry :=
  match get_message_by_id s p.id with
  | none => (none, s)
  | some old =>
    let upd := applyMessagePayload old p
    (some (old, upd),
     { s with messages := s.messages.map (fun m => if m.id = p.id then upd else m) })

/-- Modelled from the spec: `IStateRegistry.update_role` — same §4.3
contract, on one guild's role table ("If the `guild_id` does not correspond
to a guild in the cache, then `None` is returned"). -/
def update_role (s : StateRegistry) (gid : Nat) (p : RolePayload) :
    Option (Role × Role) × StateRegistry :=
  match get_role_by_id s gid p.id with
  | none => (none, s)
  | some old =>
    let upd := applyRolePayload old p
    (some (old, upd),
     { s with guilds := s.guilds.map (fun g =>
        if g.id = gid then
          { g with roles := g.roles.map (fun r => if r.id = p.id then upd else r) }
        else g) })

/-- Modelled from the spec: `IStateRegistry.update_guild_emojis` — "computes
the symmetric difference between the guild's previously cached emoji set and
the newly supplied list, inserts/removes accordingly, and returns two
disjoint sets — emojis removed and emojis added" (§4.3).  Emojis are
identified by id (the guild's emoji-by-id mapping, §3). -/
def update_guild_emojis (s : StateRegistry) (emoji_list : List EmojiPayload) (gid : Nat) :
    (Finset Nat × Finset Nat) × StateRegistry :=
  match get_guild_by_id s gid with
  | none => ((∅, ∅), s)
  | some g =>
    let oldIds := (g.emojis.map Emoji.id).toFinset
    let newIds := (emoji_list.map EmojiPayload.id).toFinset
    let newEmojis := emoji_list.map
      (fun p => ({ id := p.id, guildId := some gid, name := p.name } : Emoji))
    ((oldIds \ newIds, newIds \ oldIds),
     { s with guilds := s.guilds.map (fun g' =>
        if g'.id = gid then { g' with emojis := newEmojis } else g') })

/-- Set the last-known-activity timestamp of the channel stored under `cid`
(the channel-side bookkeeping updated when a message is parsed, §4.2). -/
def setLastMessageTimestamp (s : StateRegistry) (cid : Nat) (t : Nat) : StateRegistry :=
  mapAllChannels
    (fun c => if c.id = cid then { c with lastMessageTimestamp := some t } else c) s

/-- The message entity built from a message payload. -/
def messageOfPayload (p : MessagePayload) : Message :=
  { id := p.id, channelId := p.channelId, authorId := p.authorId,
    content := p.content, reactions := [], pinned := false,
    timestamp := p.timestamp }

/-- Idempotent upsert into the message cache ("Insertion overwrites any prior
entity with the same id", §4.1). -/
def upsertMessage (l : List Message) (m : Message) : List Message :=
  m :: l.filter (fun m' => m'.id ≠ m.id)

/-- Modelled from the spec: `IStateRegistry.parse_message` — builds the
message from its payload and registers it in the Store; "parsing a message
additionally updates the owning channel's last known activity bookkeeping if
the channel is resolvable; if it is not resolvable, the message is still
parsed and returned but the channel-side bookkeeping step is skipped — this
is a deliberate degraded-mode path, not an error" (§4.2). -/
def parse_message (s : StateRegistry) (p : MessagePayload) : StateRegistry × Message :=
  let msg := messageOfPayload p
  let s' :=
    match get_channel_by_id s p.channelId with
    | some _ => setLastMessageTimestamp s p.channelId p.timestamp
    | none => s
  ({ s' with messages := upsertMessage s'.messages msg }, msg)

/-- Modelled from the spec: `IStateRegistry.parse_application_user` — the
"self"-user construction path; it builds the OAuth2 self user and writes the
Identity Slot ("Set exactly once in normal operation by the self-user
construction path", §4.5). -/
def parse_application_user (s : StateRegistry) (p : UserPayload) :
    StateRegistry × OAuth2User :=
  let u : OAuth2User := { id := p.id, username := p.username }
  ({ s with me := some u }, u)

/-- The generic user construction path: build the user and upsert it into the
user table; the Identity Slot is untouched. -/
def parseGenericUser (s : StateRegistry) (p : UserPayload) : StateRegistry × User :=
  let u : User := { id := p.id, username := p.username }
  ({ s with users := u :: s.users.filter (fun x => x.id ≠ p.id) }, u)

/-- Modelled from the spec: `IStateRegistry.parse_user` — "if the parsed
user's id matches the Identity Slot's current id, parsing routes to the
self construction path and updates the Identity Slot instead of creating a
second generic user record" (§4.2); otherwise the generic path runs. -/
def parse_user (s : StateRegistry) (p : UserPayload) : StateRegistry × User :=
  match s.me with
  | some selfUser =>
    if selfUser.id = p.id then
      let (s', u) := parse_application_user s p
      (s', { id := u.id, username := u.username })
    else parseGenericUser s p
  | none => parseGenericUser s p

/-- Compact channel constructor for concrete cache states (timestamps
unset). -/
def mkChannel (i k : Nat) (g : Option Nat) (nm : String) : Channel :=
  { id := i, kind := k, guildId := g, name := nm,
    lastPinTimestamp := none, lastMessageTimestamp := none }

/-- Compact guild constructor for concrete cache states (available). -/
def mkGuild (i : Nat) (nm : String) (rs : List Role) (ms : List Member)
    (cs : List Channel) (es : List Emoji) : Guild :=
  { id := i, name := nm, roles := rs, members := ms, channels := cs,
    emojis := es, unavailable := false }

/-- Compact registry constructor for concrete cache states (no users,
no messages, Identity Slot unset). -/
def mkStore (gs : List Guild) (dms : List Channel) : StateRegistry :=
  { guilds := gs, dmChannels := dms, users := [], messages := [], me := none }

/-- `find?` by key commutes with mapping a key-preserving function over the
list: the first match in the image is the image of the first match. -/
theorem find_map_key {α : Type} (key : α → Nat) (f : α → α)
    (hf : ∀ x, key (f x) = key x) (k : Nat) (l : List α) :
    (l.map f).find? (fun x => key x == k) = (l.find? (fun x => key x == k)).map f := by
  induction l with
  | nil => rfl
  | cons x xs ih =>
    by_cases h : key x = k
    · simp [List.find?_cons, hf, h]
    · simp [List.find?_cons, hf, h, ih]


theorem bumpReaction_pos (l : List Reaction) (eid : Nat)
    (h : ∀ r ∈ l, 0 < r.count) : ∀ r ∈ bumpReaction l eid, 0 < r.count := by
  induction l with
  | nil => simp [bumpReaction]
  | cons x xs ih =>
    by_cases hx : x.emojiId = eid
    · intro r hr
      rw [bumpReaction, if_pos hx] at hr
      rcases List.mem_cons.mp hr with h1 | h2
      · rw [h1]; simp
      · exact h r (List.mem_cons_of_mem _ h2)
    · intro r hr
      rw [bumpReaction, if_neg hx] at hr
      rcases List.mem_cons.mp hr with h1 | h2
      · rw [h1]; exact h x (List.mem_cons_self _ _)
      · exact ih (fun r hr => h r (List.mem_cons_of_mem _ hr)) r h2

theorem dropOrDecReaction_pos (l : List Reaction) (eid : Nat)
    (h : ∀ r ∈ l, 0 < r.count) : ∀ r ∈ dropOrDecReaction l eid, 0 < r.count := by
  induction l with
  | nil => simp [dropOrDecReaction]
  | cons x xs ih =>
    by_cases hx : x.emojiId = eid
    · by_cases hc : x.count ≤ 1
      · intro r hr
        rw [dropOrDecReaction, if_pos hx, if_pos hc] at hr
        exact h r (List.mem_cons_of_mem _ hr)
      · intro r hr
        rw [dropOrDecReaction, if_pos hx, if_neg hc] at hr
        rcases List.mem_cons.mp hr with h1 | h2
        · rw [h1]; simp; omega
        · exact h r (List.mem_cons_of_mem _ h2)
    · intro r hr
      rw [dropOrDecReaction, if_neg hx] at hr
      rcases List.mem_cons.mp hr with h1 | h2
      · rw [h1]; exact h x (List.mem_cons_self _ _)
      · exact ih (fun r hr => h r (List.mem_cons_of_mem _ hr)) r h2

theorem findReaction_bump_none (l : List Reaction) (eid : Nat)
    (h : findReaction l eid = none) :
    findReaction (bumpReaction l eid) eid = some { emojiId := eid, count := 1 } := by
  induction l with
  | nil => simp [bumpReaction, findReaction]
  | cons x xs ih =>
    rw [findReaction, List.find?_eq_none] at h
    have hx : x.emojiId ≠ eid := by
      intro hc
      exact absurd (by simp [hc]) (h x (List.mem_cons_self _ _))
    rw [bumpReaction, if_neg hx, findReaction,
      List.find?_cons_of_neg _ (by simpa using hx)]
    have hxs : findReaction xs eid = none := by
      rw [findReaction, List.find?_eq_none]
      exact fun a ha => h a (List.mem_cons_of_mem _ ha)
    exact ih hxs

theorem findReaction_bump_some (l : List Reaction) (eid : Nat) (r : Reaction)
    (h : findReaction l eid = some r) :
    findReaction (bumpReaction l eid) eid = some { r with count := r.count + 1 } := by
  induction l with
  | nil => simp [findReaction] at h
  | cons x xs ih =>
    by_cases hx : x.emojiId = eid
    · rw [findReaction, List.find?_cons_of_pos _ (by simpa using hx)] at h
      have hxr : x = r := by simpa using h
      rw [bumpReaction, if_pos hx, findReaction,
        List.find?_cons_of_pos _ (by simpa using hx), hxr]
    · rw [findReaction, List.find?_cons_of_neg _ (by simpa using hx)] at h
      rw [bumpReaction, if_neg hx, findReaction,
        List.find?_cons_of_neg _ (by simpa using hx)]
      exact ih h

theorem findReaction_drop_removed (l : List Reaction) (eid : Nat) (r : Reaction)
    (hnd : (l.map Reaction.emojiId).Nodup)
    (h : findReaction l eid = some r) (hc : r.count ≤ 1) :
    findReaction (dropOrDecReaction l eid) eid = none := by
  induction l with
  | nil => simp [findReaction] at h
  | cons x xs ih =>
    by_cases hx : x.emojiId = eid
    · rw [findReaction, List.find?_cons_of_pos _ (by simpa using hx)] at h
      have hxr : x = r := by simpa using h
      rw [dropOrDecReaction, if_pos hx, if_pos (by rw [hxr]; exact hc)]
      rw [findReaction, List.find?_eq_none]
      intro a ha hcontra
      simp only [List.map_cons, List.nodup_cons] at hnd
      exact hnd.1 (by
        rw [hx, ← show a.emojiId = eid from by simpa using hcontra]
        exact List.mem_map_of_mem Reaction.emojiId ha)
    · rw [findReaction, List.find?_cons_of_neg _ (by simpa using hx)] at h
      simp only [List.map_cons, List.nodup_cons] at hnd
      rw [dropOrDecReaction, if_neg hx, findReaction,
        List.find?_cons_of_neg _ (by simpa using hx)]
      exact ih hnd.2 h

/-- Searching the guild channel tables commutes with a key-preserving rewrite
of every channel. -/
theorem findChannelInGuilds_map (f : Channel → Channel)
    (hf : ∀ c, (f c).id = c.id) (gs : List Guild) (cid : Nat) :
    findChannelInGuilds (gs.map (fun g => { g with channels := g.channels.map f })) cid
      = (findChannelInGuilds gs cid).map f := by
  induction gs with
  | nil => rfl
  | cons g rest ih =>
    simp only [List.map_cons, findChannelInGuilds]
    rw [find_map_key Channel.id f hf cid g.channels]
    cases hfind : g.channels.find? (fun c => c.id == cid) with
    | some c => simp [hfind]
    | none => simp [hfind, ih]

/-- Channel lookup commutes with a key-preserving rewrite of every channel in
the store. -/
theorem get_channel_by_id_mapAllChannels (f : Channel → Channel)
    (hf : ∀ c, (f c).id = c.id) (s : StateRegistry) (cid : Nat) :
    get_channel_by_id (mapAllChannels f s) cid
      = (get_channel_by_id s cid).map f := by
  simp only [get_channel_by_id, mapAllChannels, findDmChannel]
  rw [findChannelInGuilds_map f hf, find_map_key Channel.id f hf cid s.dmChannels]
  cases hfind : findChannelInGuilds s.guilds cid with
  | some c => simp [hfind]
  | none => simp [hfind]

/-- A channel found by searching the guild tables satisfies the lookup key. -/
theorem findChannelInGuilds_key : ∀ (gs : List Guild) (cid : Nat) (c : Channel),
    findChannelInGuilds gs cid = some c → c.id = cid := by
  intro gs
  induction gs with
  | nil => intro cid c h; simp [findChannelInGuilds] at h
  | cons g rest ih =>
    intro cid c h
    simp only [findChannelInGuilds] at h
    cases hg : g.channels.find? (fun x => x.id == cid) with
    | some c' =>
      rw [hg] at h
      have hc : c' = c := by simpa using h
      subst hc
      simpa using List.find?_some hg
    | none =>
      rw [hg] at h
      exact ih cid c h

/-- A found channel satisfies the lookup key. -/
theorem get_channel_by_id_key (s : StateRegistry) (cid : Nat) (c : Channel)
    (h : get_channel_by_id s cid = some c) : c.id = cid := by
  rw [get_channel_by_id] at h
  cases hfind : findChannelInGuilds s.guilds cid with
  | some c' =>
    rw [hfind] at h
    have hc : c' = c := by simpa using h
    subst hc
    exact findChannelInGuilds_key s.guilds cid c' hfind
  | none =>
    rw [hfind] at h
    simpa using List.find?_some h

/-- Absence of the key from every guild channel table makes the guild-side
search fail. -/
theorem findChannelInGuilds_eq_none (gs : List Guild) (cid : Nat)
    (h : ∀ g ∈ gs, ∀ c ∈ g.channels, ¬ c.id = cid) :
    findChannelInGuilds gs cid = none := by
  induction gs with
  | nil => rfl
  | cons g rest ih =>
    simp only [findChannelInGuilds]
    have hg : g.channels.find? (fun c => c.id == cid) = none := by
      rw [List.find?_eq_none]
      intro c hc
      simpa using h g (List.mem_cons_self _ _) c hc
    rw [hg]
    exact ih (fun g' hg' => h g' (List.mem_cons_of_mem _ hg'))

/-- If some cached guild's table holds the key, the guild-side search
succeeds. -/
theorem findChannelInGuilds_isSome (gs : List Guild) (cid : Nat) (g : Guild)
    (c : Channel) (hg : g ∈ gs) (hc : c ∈ g.channels) (hid : c.id = cid) :
    (findChannelInGuilds gs cid).isSome = true := by
  induction gs with
  | nil => simp at hg
  | cons g0 rest ih =>
    simp only [findChannelInGuilds]
    cases hfind : g0.channels.find? (fun x => x.id == cid) with
    | some c' => rfl
    | none =>
      rcases List.mem_cons.mp hg with h1 | h2
      · exfalso
        rw [List.find?_eq_none] at hfind
        exact hfind c (by rw [← h1]; exact hc) (by simpa using hid)
      · exact ih h2

/-- Guild lookup commutes with a key-preserving rewrite of the guild table. -/
theorem get_guild_by_id_map (f : Guild → Guild) (hf : ∀ g, (f g).id = g.id)
    (s : StateRegistry) (gid : Nat) :
    get_guild_by_id { s with guilds := s.guilds.map f } gid
      = (get_guild_by_id s gid).map f := by
  unfold get_guild_by_id
  exact find_map_key Guild.id f hf gid s.guilds

/-- A found guild satisfies the lookup key. -/
theorem get_guild_by_id_key (s : StateRegistry) (gid : Nat) (g : Guild)
    (h : get_guild_by_id s gid = some g) : g.id = gid := by
  have h' : s.guilds.find? (fun g => g.id == gid) = some g := h
  simpa using List.find?_some h'

/-- Inversion for a successful `update_channel`. -/
theorem update_channel_some (s : StateRegistry) (p : ChannelPayload)
    (o n : Channel) (s1 : StateRegistry)
    (h : update_channel s p = (some (o, n), s1)) :
    get_channel_by_id s p.id = some o ∧ n = applyChannelPayload o p ∧
      s1 = replaceChannel s p.id n ∧ o.id = p.id := by
  unfold update_channel at h
  cases hc : get_channel_by_id s p.id with
  | none => rw [hc] at h; simp at h
  | some old =>
    rw [hc] at h
    simp only [Prod.mk.injEq, Option.some.injEq] at h
    obtain ⟨⟨ho, hn⟩, hs⟩ := h
    refine ⟨?_, ?_, ?_, ?_⟩
    · rw [ho]
    · rw [← hn, ho]
    · rw [← hs, ← hn, ho]
    · rw [← ho]
      exact get_channel_by_id_key s p.id old hc

/-- Replacing the channel cached under a key updates what the key resolves
to. -/
theorem get_channel_by_id_replace (s : StateRegistry) (cid : Nat) (c o : Channel)
    (hc : c.id = cid) (ho : get_channel_by_id s cid = some o) :
    get_channel_by_id (replaceChannel s cid c) cid = some c := by
  unfold replaceChannel
  rw [get_channel_by_id_mapAllChannels _
    (fun x => by by_cases hx : x.id = cid <;> simp [hx, hc]) s cid, ho]
  have hoid : o.id = cid := get_channel_by_id_key s cid o ho
  simp [hoid]

/-- C10: `get_channel_by_id` resolves in a fixed priority order — a guild
channel match wins, otherwise an open DM channel match is returned,
otherwise the lookup reports absence with `None` (the lookup is a total
function; absence is a value, never an exception), and whenever either table
holds the id the lookup does succeed. -/
theorem C10_get_channel_priority (s : StateRegistry) (cid : Nat) :
    (∀ c, findChannelInGuilds s.guilds cid = some c →
      get_channel_by_id s cid = some c) ∧
    (findChannelInGuilds s.guilds cid = none →
      get_channel_by_id s cid = findDmChannel s cid) ∧
    (findChannelInGuilds s.guilds cid = none → findDmChannel s cid = none →
      get_channel_by_id s cid = none) ∧
    ((∃ g, g ∈ s.guilds ∧ ∃ c, c ∈ g.channels ∧ c.id = cid) →
      (get_channel_by_id s cid).isSome = true) ∧
    ((∃ c, c ∈ s.dmChannels ∧ c.id = cid) →
      (get_channel_by_id s cid).isSome = true) := by
  refine ⟨?_, ?_, ?_, ?_, ?_⟩
  · intro c h
    unfold get_channel_by_id
    rw [h]
  · intro h
    unfold get_channel_by_id
    rw [h]
  · intro h hdm
    unfold get_channel_by_id
    rw [h]
    exact hdm
  · rintro ⟨g, hg, c, hc, hid⟩
    unfold get_channel_by_id
    have := findChannelInGuilds_isSome s.guilds cid g c hg hc hid
    cases hfind : findChannelInGuilds s.guilds cid with
    | some c' => rfl
    | none => rw [hfind] at this; simp at this
  · rintro ⟨c, hc, hid⟩
    unfold get_channel_by_id
    cases hfind : findChannelInGuilds s.guilds cid with
    | some c' => rfl
    | none =>
      unfold findDmChannel
      cases hdm : s.dmChannels.find? (fun x => x.id == cid) with
      | some c' => rfl
      | none =>
        rw [List.find?_eq_none] at hdm
        exact absurd (by simpa using hid) (hdm c hc)

/-- Witness for C10 at a concrete store: a guild channel and a DM channel
share id 5; the guild channel wins, and id 6 resolves to the DM table. -/
theorem C10_get_channel_priority_witness :
    get_channel_by_id
      (mkStore [mkGuild 1 "g" [] [] [mkChannel 5 0 (some 1) "gc"] []]
        [mkChannel 5 1 none "dm5", mkChannel 6 1 none "dm6"]) 5
      = some (mkChannel 5 0 (some 1) "gc") ∧
    get_channel_by_id
      (mkStore [mkGuild 1 "g" [] [] [mkChannel 5 0 (some 1) "gc"] []]
        [mkChannel 5 1 none "dm5", mkChannel 6 1 none "dm6"]) 6
      = some (mkChannel 6 1 none "dm6") := by
  constructor
  · exact (C10_get_channel_priority _ 5).1 _ (by decide)
  · rw [(C10_get_channel_priority _ 6).2.1 (by decide)]
    decide

/-- C4: every update operation (`update_channel`, `update_guild`,
`update_message`, `update_role`) on a target absent from the cache returns
an empty result and leaves the whole cache state unchanged; on a cached
target it returns both the old and the new snapshot. -/
theorem C4_update_absent_is_noop (s : StateRegistry) (pc : ChannelPayload)
    (pg : GuildPayload) (pm : MessagePayload) (gid : Nat) (pr : RolePayload) :
    (get_channel_by_id s pc.id = none → update_channel s pc = (none, s)) ∧
    (∀ c, get_channel_by_id s pc.id = some c →
      (update_channel s pc).1 = some (c, applyChannelPayload c pc)) ∧
    (get_guild_by_id s pg.id = none → update_guild s pg = (none, s)) ∧
    (∀ g, get_guild_by_id s pg.id = some g →
      (update_guild s pg).1 = some (g, applyGuildPayload g pg)) ∧
    (get_message_by_id s pm.id = none → update_message s pm = (none, s)) ∧
    (∀ m, get_message_by_id s pm.id = some m →
      (update_message s pm).1 = some (m, applyMessagePayload m pm)) ∧
    (get_role_by_id s gid pr.id = none → update_role s gid pr = (none, s)) ∧
    (∀ r, get_role_by_id s gid pr.id = some r →
      (update_role s gid pr).1 = some (r, applyRolePayload r pr)) := by
  refine ⟨?_, ?_, ?_, ?_, ?_, ?_, ?_, ?_⟩
  · intro h; unfold update_channel; rw [h]
  · intro c h; unfold update_channel; rw [h]
  · intro h; unfold update_guild; rw [h]
  · intro g h; unfold update_guild; rw [h]
  · intro h; unfold update_message; rw [h]
  · intro m h; unfold update_message; rw [h]
  · intro h; unfold update_role; rw [h]
  · intro r h; unfold update_role; rw [h]

/-- Witness for C4: updating a channel and a role that are not cached leaves
the empty registry untouched and returns the empty result; updating a cached
channel returns the (old, new) snapshot pair. -/
theorem C4_update_absent_is_noop_witness :
    update_channel emptyRegistry { id := 1, kind := 0, name := "c" }
      = (none, emptyRegistry) ∧
    update_role emptyRegistry 1 { id := 2, name := "r", position := 0 }
      = (none, emptyRegistry) ∧
    (update_channel (mkStore [] [mkChannel 1 0 none "dm"])
        { id := 1, kind := 0, name := "c" }).1
      = some (mkChannel 1 0 none "dm",
          applyChannelPayload (mkChannel 1 0 none "dm")
            { id := 1, kind := 0, name := "c" }) := by
  refine ⟨?_, ?_, ?_⟩
  · exact (C4_update_absent_is_noop emptyRegistry { id := 1, kind := 0, name := "c" }
      { id := 1, name := "g", unavailable := false }
      { id := 1, channelId := 1, authorId := 1, content := "x", timestamp := 0 }
      1 { id := 2, name := "r", position := 0 }).1 (by decide)
  · exact (C4_update_absent_is_noop emptyRegistry { id := 1, kind := 0, name := "c" }
      { id := 1, name := "g", unavailable := false }
      { id := 1, channelId := 1, authorId := 1, content := "x", timestamp := 0 }
      1 { id := 2, name := "r", position := 0 }).2.2.2.2.2.2.1 (by decide)
  · exact (C4_update_absent_is_noop (mkStore [] [mkChannel 1 0 none "dm"])
      { id := 1, kind := 0, name := "c" }
      { id := 1, name := "g", unavailable := false }
      { id := 1, channelId := 1, authorId := 1, content := "x", timestamp := 0 }
      1 { id := 2, name := "r", position := 0 }).2.1 _ (by decide)

/-- C1: `delete_role` removes the role from the owning guild's role table and
strips it from every member cached under that guild in one state transition
(the cascade is a single logical operation — no intermediate state exists):
afterwards the role lookup reports absence and no member lookup under the
guild yields a member whose role-reference set contains the deleted role. -/
theorem C1_delete_role_cascade (s : StateRegistry) (role : Role) :
    get_role_by_id (delete_role s role) role.guildId role.id = none ∧
    (∀ uid m, get_member_by_id (delete_role s role) uid role.guildId = some m →
      role.id ∉ m.roleIds) := by
  have hfg : ∀ g, Guild.id (stripRoleFromGuild role g) = g.id := by
    intro g
    unfold stripRoleFromGuild
    by_cases h : g.id = role.guildId <;> simp [h]
  have hguild : get_guild_by_id (delete_role s role) role.guildId
      = (get_guild_by_id s role.guildId).map (stripRoleFromGuild role) := by
    unfold delete_role
    exact get_guild_by_id_map (stripRoleFromGuild role) hfg s role.guildId
  cases hg : get_guild_by_id s role.guildId with
  | none =>
    constructor
    · unfold get_role_by_id
      rw [hguild, hg]
      rfl
    · intro uid m hm
      unfold get_member_by_id at hm
      rw [hguild, hg] at hm
      simp at hm
  | some g =>
    have hgid : g.id = role.guildId := get_guild_by_id_key s role.guildId g hg
    constructor
    · unfold get_role_by_id
      rw [hguild, hg]
      show (stripRoleFromGuild role g).roles.find? (fun r => r.id == role.id) = none
      rw [stripRoleFromGuild, if_pos hgid]
      rw [List.find?_eq_none]
      intro x hx
      have hx' : x ∈ g.roles.filter (fun r => r.id ≠ role.id) := hx
      have := (List.mem_filter.mp hx').2
      simpa using this
    · intro uid m hm
      unfold get_member_by_id at hm
      rw [hguild, hg] at hm
      have hm' : (stripRoleFromGuild role g).members.find?
          (fun mm => mm.userId == uid) = some m := hm
      rw [stripRoleFromGuild, if_pos hgid] at hm'
      have hm2 : (g.members.map (stripRoleFromMember role)).find?
          (fun mm => mm.userId == uid) = some m := hm'
      rw [find_map_key Member.userId (stripRoleFromMember role)
        (fun x => rfl) uid g.members] at hm2
      cases hfind : g.members.find? (fun mm => mm.userId == uid) with
      | none => rw [hfind] at hm2; simp at hm2
      | some m0 =>
        rw [hfind] at hm2
        have hmm : stripRoleFromMember role m0 = m := by simpa using hm2
        intro hmem
        rw [← hmm] at hmem
        have hmem' : role.id ∈ m0.roleIds.filter (fun x => x ≠ role.id) := hmem
        have := (List.mem_filter.mp hmem').2
        simp at this

/-- Witness for C1, the spec's own scenario (§8.6): guild 1 has roles
10 and 20 and a member holding both; deleting role 10 leaves the member with
role set [20] and the role lookup empty. -/
theorem C1_delete_role_cascade_witness :
    get_role_by_id
      (delete_role
        (mkStore [mkGuild 1 "g"
          [⟨10, 1, "r1", 0⟩, ⟨20, 1, "r2", 1⟩]
          [⟨100, 1, [10, 20], none⟩] [] []] [])
        ⟨10, 1, "r1", 0⟩) 1 10 = none ∧
    (10 : Nat) ∉ (⟨100, 1, [20], none⟩ : Member).roleIds := by
  constructor
  · exact (C1_delete_role_cascade
      (mkStore [mkGuild 1 "g"
        [⟨10, 1, "r1", 0⟩, ⟨20, 1, "r2", 1⟩]
        [⟨100, 1, [10, 20], none⟩] [] []] [])
      ⟨10, 1, "r1", 0⟩).1
  · exact (C1_delete_role_cascade
      (mkStore [mkGuild 1 "g"
        [⟨10, 1, "r1", 0⟩, ⟨20, 1, "r2", 1⟩]
        [⟨100, 1, [10, 20], none⟩] [] []] [])
      ⟨10, 1, "r1", 0⟩).2 100 ⟨100, 1, [20], none⟩ (by decide)

/-- C2: on a well-formed message, reaction counts stay positive under both
operations (so a count-0 entry is never present and counts are never
negative); `increment_reaction_count` creates a count-1 entry for a first
reactor and bumps an existing entry otherwise; a decrement that would reach
zero removes the entry and reports the reaction as now absent (`none`). -/
theorem C2_reaction_counts (m : Message) (eid : Nat) (hwf : reactionsWF m) :
    (∀ r ∈ (increment_reaction_count m eid).1.reactions, 0 < r.count) ∧
    (∀ r ∈ (decrement_reaction_count m eid).1.reactions, 0 < r.count) ∧
    (getReaction m eid = none →
      getReaction (increment_reaction_count m eid).1 eid
          = some { emojiId := eid, count := 1 } ∧
        (increment_reaction_count m eid).2 = { emojiId := eid, count := 1 }) ∧
    (∀ r, getReaction m eid = some r →
      getReaction (increment_reaction_count m eid).1 eid
        = some { r with count := r.count + 1 }) ∧
    (∀ r, getReaction m eid = some r → r.count = 1 →
      getReaction (decrement_reaction_count m eid).1 eid = none ∧
        (decrement_reaction_count m eid).2 = none) := by
  refine ⟨?_, ?_, ?_, ?_, ?_⟩
  · intro r hr
    exact bumpReaction_pos m.reactions eid hwf.2 r hr
  · cases hg : getReaction m eid with
    | none =>
      have hd : decrement_reaction_count m eid = (m, none) := by
        unfold decrement_reaction_count
        rw [hg]
      rw [hd]
      exact hwf.2
    | some r0 =>
      have hd : (decrement_reaction_count m eid).1
          = { m with reactions := dropOrDecReaction m.reactions eid } := by
        unfold decrement_reaction_count
        rw [hg]
      rw [hd]
      exact dropOrDecReaction_pos m.reactions eid hwf.2
  · intro hnone
    constructor
    · exact findReaction_bump_none m.reactions eid hnone
    · simp [increment_reaction_count, hnone]
  · intro r hr
    exact findReaction_bump_some m.reactions eid r hr
  · intro r hr hc1
    have hd : (decrement_reaction_count m eid).1
        = { m with reactions := dropOrDecReaction m.reactions eid } := by
      unfold decrement_reaction_count
      rw [hr]
    constructor
    · rw [hd]
      exact findReaction_drop_removed m.reactions eid r hwf.1 hr (le_of_eq hc1)
    · simp [decrement_reaction_count, hr, hc1]

/-- Witness for C2, the spec's own scenario (§8.7): a first reaction with
emoji 7 creates a count-1 entry; decrementing a count-1 entry removes it and
reports the reaction as now absent. -/
theorem C2_reaction_counts_witness :
    reactionsWF ⟨1, 2, 3, "hi", [⟨7, 1⟩], false, 0⟩ ∧
    getReaction (increment_reaction_count ⟨1, 2, 3, "hi", [], false, 0⟩ 7).1 7
      = some ⟨7, 1⟩ ∧
    getReaction (decrement_reaction_count ⟨1, 2, 3, "hi", [⟨7, 1⟩], false, 0⟩ 7).1 7
      = none ∧
    (decrement_reaction_count ⟨1, 2, 3, "hi", [⟨7, 1⟩], false, 0⟩ 7).2 = none := by
  refine ⟨by decide, ?_, ?_, ?_⟩
  · exact ((C2_reaction_counts ⟨1, 2, 3, "hi", [], false, 0⟩ 7
      (by decide)).2.2.1 (by decide)).1
  · exact ((C2_reaction_counts ⟨1, 2, 3, "hi", [⟨7, 1⟩], false, 0⟩ 7
      (by decide)).2.2.2.2 ⟨7, 1⟩ (by decide) rfl).1
  · exact ((C2_reaction_counts ⟨1, 2, 3, "hi", [⟨7, 1⟩], false, 0⟩ 7
      (by decide)).2.2.2.2 ⟨7, 1⟩ (by decide) rfl).2

/-- C3: for a cached guild, `update_guild_emojis` returns the removed set
(old minus new) and the added set (new minus old); the two are disjoint, an
emoji present both before and in the supplied list appears in neither, the
old set minus removed plus added is exactly the new set derived from the
list, and the guild's stored emoji set afterwards is that new set. -/
theorem C3_update_guild_emojis_sets (s : StateRegistry) (L : List EmojiPayload)
    (gid : Nat) (g : Guild) (hg : get_guild_by_id s gid = some g) :
    (update_guild_emojis s L gid).1.1
        = (g.emojis.map Emoji.id).toFinset \ (L.map EmojiPayload.id).toFinset ∧
    (update_guild_emojis s L gid).1.2
        = (L.map EmojiPayload.id).toFinset \ (g.emojis.map Emoji.id).toFinset ∧
    Disjoint (update_guild_emojis s L gid).1.1 (update_guild_emojis s L gid).1.2 ∧
    ((g.emojis.map Emoji.id).toFinset \ (update_guild_emojis s L gid).1.1)
        ∪ (update_guild_emojis s L gid).1.2
      = (L.map EmojiPayload.id).toFinset ∧
    (∀ e, e ∈ (g.emojis.map Emoji.id).toFinset →
      e ∈ (L.map EmojiPayload.id).toFinset →
      e ∉ (update_guild_emojis s L gid).1.1 ∧
        e ∉ (update_guild_emojis s L gid).1.2) ∧
    (∃ g', get_guild_by_id (update_guild_emojis s L gid).2 gid = some g' ∧
      (g'.emojis.map Emoji.id).toFinset = (L.map EmojiPayload.id).toFinset) := by
  have hgid : g.id = gid := get_guild_by_id_key s gid g hg
  have heq : update_guild_emojis s L gid
      = (((g.emojis.map Emoji.id).toFinset \ (L.map EmojiPayload.id).toFinset,
          (L.map EmojiPayload.id).toFinset \ (g.emojis.map Emoji.id).toFinset),
         { s with guilds := s.guilds.map (fun g' =>
            if g'.id = gid then
              { g' with emojis := L.map (fun p =>
                  ({ id := p.id, guildId := some gid, name := p.name } : Emoji)) }
            else g') }) := by
    unfold update_guild_emojis
    rw [hg]
  refine ⟨by rw [heq], by rw [heq], ?_, ?_, ?_, ?_⟩
  · rw [heq]
    exact disjoint_sdiff_sdiff
  · rw [heq]
    show ((g.emojis.map Emoji.id).toFinset
        \ ((g.emojis.map Emoji.id).toFinset \ (L.map EmojiPayload.id).toFinset))
      ∪ ((L.map EmojiPayload.id).toFinset \ (g.emojis.map Emoji.id).toFinset)
      = (L.map EmojiPayload.id).toFinset
    rw [Finset.sdiff_sdiff_self_left, Finset.inter_comm, Finset.union_comm,
      Finset.sdiff_union_inter]
  · intro e he hn
    rw [heq]
    constructor
    · simp [Finset.mem_sdiff, hn]
    · simp [Finset.mem_sdiff, he]
  · refine ⟨{ g with emojis := L.map (fun p =>
      ({ id := p.id, guildId := some gid, name := p.name } : Emoji)) }, ?_, ?_⟩
    · rw [heq]
      have hf : ∀ g' : Guild,
          Guild.id (if g'.id = gid then
            { g' with emojis := L.map (fun p =>
                ({ id := p.id, guildId := some gid, name := p.name } : Emoji)) }
          else g') = g'.id := by
        intro g'
        by_cases h : g'.id = gid <;> simp [h]
      rw [get_guild_by_id_map _ hf s gid, hg]
      simp [hgid]
    · have hcomp : (Emoji.id ∘ fun p : EmojiPayload =>
          ({ id := p.id, guildId := some gid, name := p.name } : Emoji))
          = EmojiPayload.id := rfl
      simp [List.map_map, hcomp]

/-- Witness for C3 at a concrete store: guild 1 caches emojis 1 and 2 and
the supplied list holds 2 and 3; removed = {1}, added = {3}. -/
theorem C3_update_guild_emojis_sets_witness :
    (update_guild_emojis
      (mkStore [mkGuild 1 "g" [] [] [] [⟨1, some 1, "e1"⟩, ⟨2, some 1, "e2"⟩]] [])
      [⟨2, "e2"⟩, ⟨3, "e3"⟩] 1).1.1 = {1} ∧
    (update_guild_emojis
      (mkStore [mkGuild 1 "g" [] [] [] [⟨1, some 1, "e1"⟩, ⟨2, some 1, "e2"⟩]] [])
      [⟨2, "e2"⟩, ⟨3, "e3"⟩] 1).1.2 = {3} := by
  have h := C3_update_guild_emojis_sets
    (mkStore [mkGuild 1 "g" [] [] [] [⟨1, some 1, "e1"⟩, ⟨2, some 1, "e2"⟩]] [])
    [⟨2, "e2"⟩, ⟨3, "e3"⟩] 1
    (mkGuild 1 "g" [] [] [] [⟨1, some 1, "e1"⟩, ⟨2, some 1, "e2"⟩]) (by decide)
  constructor
  · rw [h.1]
    decide
  · rw [h.2.1]
    decide

/-- Inversion for a successful `update_guild`. -/
theorem update_guild_some (s : StateRegistry) (p : GuildPayload)
    (o n : Guild) (s1 : StateRegistry)
    (h : update_guild s p = (some (o, n), s1)) :
    get_guild_by_id s p.id = some o ∧ n = applyGuildPayload o p ∧
      s1 = { s with guilds := s.guilds.map (fun g => if g.id = p.id then n else g) } ∧
      o.id = p.id := by
  unfold update_guild at h
  cases hc : get_guild_by_id s p.id with
  | none => rw [hc] at h; simp at h
  | some old =>
    rw [hc] at h
    simp only [Prod.mk.injEq, Option.some.injEq] at h
    obtain ⟨⟨ho, hn⟩, hs⟩ := h
    refine ⟨?_, ?_, ?_, ?_⟩
    · rw [ho]
    · rw [← hn, ho]
    · rw [← hs, ← hn]
    · rw [← ho]
      exact get_guild_by_id_key s p.id old hc

/-- Overwriting the guild cached under a key updates what the key resolves
to. -/
theorem get_guild_by_id_overwrite (s : StateRegistry) (gid : Nat) (n o : Guild)
    (hn : n.id = gid) (ho : get_guild_by_id s gid = some o) :
    get_guild_by_id
      { s with guilds := s.guilds.map (fun g => if g.id = gid then n else g) } gid
      = some n := by
  have hf : ∀ g : Guild, Guild.id (if g.id = gid then n else g) = g.id := by
    intro g
    by_cases h : g.id = gid <;> simp [h, hn]
  rw [get_guild_by_id_map _ hf s gid, ho]
  have hoid : o.id = gid := get_guild_by_id_key s gid o ho
  simp [hoid]

/-- C7: applying the same update payload twice is idempotent for channel and
guild updates — the second application returns the first application's "new"
snapshot both as its "old" and as its "new" snapshot (no drift). -/
theorem C7_update_idempotent (s : StateRegistry) (pc : ChannelPayload)
    (pg : GuildPayload) :
    (∀ o n s1, update_channel s pc = (some (o, n), s1) →
      ∃ s2, update_channel s1 pc = (some (n, n), s2)) ∧
    (∀ o n s1, update_guild s pg = (some (o, n), s1) →
      ∃ s2, update_guild s1 pg = (some (n, n), s2)) := by
  constructor
  · intro o n s1 h
    obtain ⟨ho, hn, hs, hoid⟩ := update_channel_some s pc o n s1 h
    have hnid : n.id = pc.id := by
      rw [hn]
      exact hoid
    have hlook : get_channel_by_id s1 pc.id = some n := by
      rw [hs]
      exact get_channel_by_id_replace s pc.id n o hnid ho
    refine ⟨replaceChannel s1 pc.id n, ?_⟩
    unfold update_channel
    rw [hlook]
    have hidem : applyChannelPayload n pc = n := by
      rw [hn]
      rfl
    show (some (n, applyChannelPayload n pc),
        replaceChannel s1 pc.id (applyChannelPayload n pc))
      = (some (n, n), replaceChannel s1 pc.id n)
    rw [hidem]
  · intro o n s1 h
    obtain ⟨ho, hn, hs, hoid⟩ := update_guild_some s pg o n s1 h
    have hnid : n.id = pg.id := by
      rw [hn]
      exact hoid
    have hlook : get_guild_by_id s1 pg.id = some n := by
      rw [hs]
      exact get_guild_by_id_overwrite s pg.id n o hnid ho
    refine ⟨{ s1 with guilds := s1.guilds.map (fun g =>
      if g.id = pg.id then n else g) }, ?_⟩
    unfold update_guild
    rw [hlook]
    have hidem : applyGuildPayload n pg = n := by
      rw [hn]
      rfl
    show (some (n, applyGuildPayload n pg),
        { s1 with guilds := s1.guilds.map (fun g : Guild =>
           if g.id = pg.id then applyGuildPayload n pg else g) })
      = (some (n, n), { s1 with guilds := s1.guilds.map (fun g : Guild =>
           if g.id = pg.id then n else g) })
    rw [hidem]

/-- Witness for C7: a cached DM channel updated twice with the same payload;
the second diff pair is (new, new) with the first call's "new" snapshot. -/
theorem C7_update_idempotent_witness :
    update_channel (mkStore [] [mkChannel 1 0 none "a"]) ⟨1, 2, "b"⟩
      = (some (mkChannel 1 0 none "a", mkChannel 1 2 none "b"),
          mkStore [] [mkChannel 1 2 none "b"]) ∧
    (update_channel (mkStore [] [mkChannel 1 2 none "b"]) ⟨1, 2, "b"⟩).1
      = some (mkChannel 1 2 none "b", mkChannel 1 2 none "b") := by
  constructor
  · decide
  · obtain ⟨s2, hs2⟩ := (C7_update_idempotent
      (mkStore [] [mkChannel 1 0 none "a"]) ⟨1, 2, "b"⟩
      ⟨1, "g", false⟩).1 (mkChannel 1 0 none "a") (mkChannel 1 2 none "b")
      (mkStore [] [mkChannel 1 2 none "b"]) (by decide)
    rw [hs2]

/-- C5: the "old" half of a diff pair is a point-in-time snapshot: it equals
the entity cached when the update ran, and a later update on the same entity
(which does move the live cached entity to reflect the later payload) leaves
the earlier snapshot still equal to the state it captured — snapshots are
values, not aliases of the live entity. -/
theorem C5_old_snapshot_immutable (s : StateRegistry) (p q : ChannelPayload)
    (pg qg : GuildPayload) :
    (∀ o n s1, update_channel s p = (some (o, n), s1) → q.id = p.id →
      get_channel_by_id s p.id = some o ∧
      n = applyChannelPayload o p ∧
      (∀ r2 s2, update_channel s1 q = (r2, s2) →
        get_channel_by_id s2 p.id = some (applyChannelPayload n q) ∧
        get_channel_by_id s p.id = some o)) ∧
    (∀ o n s1, update_guild s pg = (some (o, n), s1) → qg.id = pg.id →
      get_guild_by_id s pg.id = some o ∧
      n = applyGuildPayload o pg ∧
      (∀ r2 s2, update_guild s1 qg = (r2, s2) →
        get_guild_by_id s2 pg.id = some (applyGuildPayload n qg) ∧
        get_guild_by_id s pg.id = some o)) := by
  constructor
  · intro o n s1 h hq
    obtain ⟨ho, hn, hs, hoid⟩ := update_channel_some s p o n s1 h
    have hnid : n.id = p.id := by
      rw [hn]
      exact hoid
    have hlook : get_channel_by_id s1 q.id = some n := by
      rw [hq, hs]
      exact get_channel_by_id_replace s p.id n o hnid ho
    refine ⟨ho, hn, ?_⟩
    intro r2 s2 h2
    have h2' : update_channel s1 q
        = (some (n, applyChannelPayload n q),
           replaceChannel s1 q.id (applyChannelPayload n q)) := by
      unfold update_channel
      rw [hlook]
    rw [h2'] at h2
    have hs2 : s2 = replaceChannel s1 q.id (applyChannelPayload n q) := by
      have := congrArg Prod.snd h2
      simpa using this.symm
    constructor
    · rw [hs2, ← hq]
      exact get_channel_by_id_replace s1 q.id (applyChannelPayload n q) n
        (by rw [hq]; exact hnid) hlook
    · exact ho
  · intro o n s1 h hq
    obtain ⟨ho, hn, hs, hoid⟩ := update_guild_some s pg o n s1 h
    have hnid : n.id = pg.id := by
      rw [hn]
      exact hoid
    have hlook : get_guild_by_id s1 qg.id = some n := by
      rw [hq, hs]
      exact get_guild_by_id_overwrite s pg.id n o hnid ho
    refine ⟨ho, hn, ?_⟩
    intro r2 s2 h2
    have h2' : update_guild s1 qg
        = (some (n, applyGuildPayload n qg),
           { s1 with guilds := s1.guilds.map (fun g =>
              if g.id = qg.id then applyGuildPayload n qg else g) }) := by
      unfold update_guild
      rw [hlook]
    rw [h2'] at h2
    have hs2 : s2 = { s1 with guilds := s1.guilds.map (fun g =>
        if g.id = qg.id then applyGuildPayload n qg else g) } := by
      have := congrArg Prod.snd h2
      simpa using this.symm
    constructor
    · rw [hs2, ← hq]
      exact get_guild_by_id_overwrite s1 qg.id (applyGuildPayload n qg) n
        (by rw [hq]; exact hnid) hlook
    · exact ho

/-- Witness for C5: channel 1 is updated with payload (kind 2, "b") and then
with payload (kind 3, "c"); the live channel ends as (kind 3, "c") while the
first call's "old" snapshot still equals the originally cached channel. -/
theorem C5_old_snapshot_immutable_witness :
    get_channel_by_id (mkStore [] [mkChannel 1 0 none "a"]) 1
      = some (mkChannel 1 0 none "a") ∧
    get_channel_by_id (mkStore [] [mkChannel 1 3 none "c"]) 1
      = some (mkChannel 1 3 none "c") := by
  have h := (C5_old_snapshot_immutable (mkStore [] [mkChannel 1 0 none "a"])
    ⟨1, 2, "b"⟩ ⟨1, 3, "c"⟩ ⟨1, "g", false⟩ ⟨1, "g", false⟩).1
    (mkChannel 1 0 none "a") (mkChannel 1 2 none "b")
    (mkStore [] [mkChannel 1 2 none "b"]) (by decide) (by decide)
  constructor
  · exact h.1
  · exact (h.2.2 (some (mkChannel 1 2 none "b", mkChannel 1 3 none "c"))
      (mkStore [] [mkChannel 1 3 none "c"]) (by decide)).1

/-- Registering a message in the cache makes its id resolvable. -/
theorem get_message_by_id_upsert (s : StateRegistry) (m : Message) :
    get_message_by_id { s with messages := upsertMessage s.messages m } m.id
      = some m := by
  unfold get_message_by_id upsertMessage
  rw [List.find?_cons_of_pos _ (by simp)]

/-- C6: `parse_message` always constructs and returns the message built from
the payload and registers it in the message cache; when the channel is
resolvable the channel's last-known-activity bookkeeping is set to the
message's timestamp, and when it is not resolvable the channel tables are
left untouched (the bookkeeping step is skipped, not an error). -/
theorem C6_parse_message_degraded (s : StateRegistry) (p : MessagePayload) :
    (parse_message s p).2 = messageOfPayload p ∧
    get_message_by_id (parse_message s p).1 p.id = some (messageOfPayload p) ∧
    (get_channel_by_id s p.channelId = none →
      (parse_message s p).1.guilds = s.guilds ∧
      (parse_message s p).1.dmChannels = s.dmChannels) ∧
    (∀ c, get_channel_by_id s p.channelId = some c →
      get_channel_by_id (parse_message s p).1 p.channelId
        = some { c with lastMessageTimestamp := some p.timestamp }) := by
  refine ⟨rfl, ?_, ?_, ?_⟩
  · cases hc : get_channel_by_id s p.channelId with
    | none =>
      have hf : (parse_message s p).1
          = { s with messages := upsertMessage s.messages (messageOfPayload p) } := by
        unfold parse_message
        rw [hc]
      rw [hf]
      exact get_message_by_id_upsert s (messageOfPayload p)
    | some c =>
      have hf : (parse_message s p).1
          = { setLastMessageTimestamp s p.channelId p.timestamp with
              messages := upsertMessage
                (setLastMessageTimestamp s p.channelId p.timestamp).messages
                (messageOfPayload p) } := by
        unfold parse_message
        rw [hc]
      rw [hf]
      exact get_message_by_id_upsert
        (setLastMessageTimestamp s p.channelId p.timestamp) (messageOfPayload p)
  · intro hnone
    have hf : (parse_message s p).1
        = { s with messages := upsertMessage s.messages (messageOfPayload p) } := by
      unfold parse_message
      rw [hnone]
    rw [hf]
    exact ⟨rfl, rfl⟩
  · intro c hc
    have hf : (parse_message s p).1
        = { setLastMessageTimestamp s p.channelId p.timestamp with
            messages := upsertMessage
              (setLastMessageTimestamp s p.channelId p.timestamp).messages
              (messageOfPayload p) } := by
      unfold parse_message
      rw [hc]
    rw [hf]
    show get_channel_by_id (setLastMessageTimestamp s p.channelId p.timestamp)
        p.channelId = some { c with lastMessageTimestamp := some p.timestamp }
    unfold setLastMessageTimestamp
    have hf2 : ∀ x : Channel, Channel.id (if x.id = p.channelId then
        { x with lastMessageTimestamp := some p.timestamp } else x) = x.id := by
      intro x
      by_cases h : x.id = p.channelId <;> simp [h]
    rw [get_channel_by_id_mapAllChannels _ hf2 s p.channelId, hc]
    have hcid : c.id = p.channelId := get_channel_by_id_key s p.channelId c hc
    simp [hcid]

/-- Witness for C6: parsing a message into cached DM channel 9 stamps the
channel's activity bookkeeping with the message timestamp; parsing a message
whose channel 77 is absent still returns the built message and leaves the
channel tables untouched. -/
theorem C6_parse_message_degraded_witness :
    (parse_message (mkStore [] [mkChannel 9 1 none "dm"])
        ⟨50, 9, 3, "hello", 42⟩).2 = messageOfPayload ⟨50, 9, 3, "hello", 42⟩ ∧
    get_channel_by_id (parse_message (mkStore [] [mkChannel 9 1 none "dm"])
        ⟨50, 9, 3, "hello", 42⟩).1 9
      = some { mkChannel 9 1 none "dm" with lastMessageTimestamp := some 42 } ∧
    (parse_message (mkStore [] [mkChannel 9 1 none "dm"]) ⟨50, 77, 3, "x", 1⟩).2
      = messageOfPayload ⟨50, 77, 3, "x", 1⟩ ∧
    (parse_message (mkStore [] [mkChannel 9 1 none "dm"])
        ⟨50, 77, 3, "x", 1⟩).1.dmChannels = [mkChannel 9 1 none "dm"] := by
  refine ⟨(C6_parse_message_degraded (mkStore [] [mkChannel 9 1 none "dm"])
    ⟨50, 9, 3, "hello", 42⟩).1, ?_, (C6_parse_message_degraded
    (mkStore [] [mkChannel 9 1 none "dm"]) ⟨50, 77, 3, "x", 1⟩).1, ?_⟩
  · exact (C6_parse_message_degraded (mkStore [] [mkChannel 9 1 none "dm"])
      ⟨50, 9, 3, "hello", 42⟩).2.2.2 (mkChannel 9 1 none "dm") (by decide)
  · have h3 := (C6_parse_message_degraded (mkStore [] [mkChannel 9 1 none "dm"])
      ⟨50, 77, 3, "x", 1⟩).2.2.1 (by decide)
    exact h3.2.trans rfl

/-- C8: the Identity Slot starts empty, is written by the self-user
construction path (`parse_application_user`), is never initialised by the
generic `parse_user` path, and a user payload whose id matches the current
slot routes `parse_user` to the self path: the slot is updated and no second
generic user record is created (the user table is untouched). -/
theorem C8_identity_slot (s : StateRegistry) (p : UserPayload) (u : OAuth2User) :
    emptyRegistry.me = none ∧
    (s.me = none → ((parse_user s p).1).me = none) ∧
    ((parse_application_user s p).1).me
      = some { id := p.id, username := p.username } ∧
    (s.me = some u → u.id = p.id →
      ((parse_user s p).1).me = some { id := p.id, username := p.username } ∧
      ((parse_user s p).1).users = s.users) := by
  refine ⟨rfl, ?_, rfl, ?_⟩
  · intro h
    have hres : (parse_user s p).1 = (parseGenericUser s p).1 := by
      unfold parse_user
      rw [h]
    rw [hres]
    exact h
  · intro hme hid
    have hres : (parse_user s p).1
        = { s with me := some { id := p.id, username := p.username } } := by
      simp [parse_user, hme, hid, parse_application_user]
    rw [hres]
    exact ⟨rfl, rfl⟩

/-- Witness for C8: the handshake sets the slot to user 7; a later payload
for id 7 updates the slot through the self path and adds no generic user
record. -/
theorem C8_identity_slot_witness :
    (parse_application_user emptyRegistry ⟨7, "bot"⟩).1.me = some ⟨7, "bot"⟩ ∧
    (parse_user (parse_application_user emptyRegistry ⟨7, "bot"⟩).1
        ⟨7, "newbot"⟩).1.me = some ⟨7, "newbot"⟩ ∧
    (parse_user (parse_application_user emptyRegistry ⟨7, "bot"⟩).1
        ⟨7, "newbot"⟩).1.users = [] := by
  have h := C8_identity_slot (parse_application_user emptyRegistry ⟨7, "bot"⟩).1
    ⟨7, "newbot"⟩ ⟨7, "bot"⟩
  refine ⟨?_, ?_, ?_⟩
  · exact (C8_identity_slot emptyRegistry ⟨7, "bot"⟩ ⟨7, "bot"⟩).2.2.1
  · exact (h.2.2.2 (by decide) rfl).1
  · exact ((h.2.2.2 (by decide) rfl).2).trans rfl

/-- C9: after `delete_guild`, the guild and everything cached under it are
gone from the store: the guild lookup, every role lookup and every member
lookup under its id report absence, no guild with its id remains (so its
emoji table is gone with it), and a channel id held only by copies of that
guild no longer resolves. -/
theorem C9_delete_guild_cascade (s : StateRegistry) (guild : Guild)
    (rid uid cid : Nat) :
    get_guild_by_id (delete_guild s guild) guild.id = none ∧
    get_role_by_id (delete_guild s guild) guild.id rid = none ∧
    get_member_by_id (delete_guild s guild) uid guild.id = none ∧
    (∀ g' ∈ (delete_guild s guild).guilds, g'.id ≠ guild.id) ∧
    ((∀ g' ∈ s.guilds, g'.id ≠ guild.id → ∀ c ∈ g'.channels, c.id ≠ cid) →
      (∀ c ∈ s.dmChannels, c.id ≠ cid) →
      get_channel_by_id (delete_guild s guild) cid = none) := by
  have hnone : get_guild_by_id (delete_guild s guild) guild.id = none := by
    unfold delete_guild get_guild_by_id
    rw [List.find?_eq_none]
    intro g hg
    have := (List.mem_filter.mp hg).2
    simpa using this
  refine ⟨hnone, ?_, ?_, ?_, ?_⟩
  · unfold get_role_by_id
    rw [hnone]
    rfl
  · unfold get_member_by_id
    rw [hnone]
    rfl
  · intro g' hg'
    have hg2 : g' ∈ s.guilds.filter (fun g => g.id ≠ guild.id) := hg'
    have := (List.mem_filter.mp hg2).2
    simpa using this
  · intro hguilds hdm
    have h1 : get_channel_by_id (delete_guild s guild) cid
        = match findChannelInGuilds
            (s.guilds.filter (fun g => g.id ≠ guild.id)) cid with
          | some c => some c
          | none => s.dmChannels.find? (fun c => c.id == cid) := rfl
    have hfin : findChannelInGuilds
        (s.guilds.filter (fun g => g.id ≠ guild.id)) cid = none := by
      apply findChannelInGuilds_eq_none
      intro g hg c hc
      have hmem := List.mem_filter.mp hg
      have hgid : g.id ≠ guild.id := by simpa using hmem.2
      exact hguilds g hmem.1 hgid c hc
    rw [h1, hfin]
    show s.dmChannels.find? (fun c => c.id == cid) = none
    rw [List.find?_eq_none]
    intro c hc
    simpa using hdm c hc

/-- Witness for C9: deleting guild 1 (role 10, member 100, channel 5) from a
store that also caches guild 2 leaves no trace of guild 1's contents. -/
theorem C9_delete_guild_cascade_witness :
    get_guild_by_id (delete_guild (mkStore
      [mkGuild 1 "g1" [⟨10, 1, "r", 0⟩] [⟨100, 1, [10], none⟩]
        [mkChannel 5 0 (some 1) "c"] [],
       mkGuild 2 "g2" [] [] [mkChannel 6 0 (some 2) "d"] []] [])
      (mkGuild 1 "g1" [⟨10, 1, "r", 0⟩] [⟨100, 1, [10], none⟩]
        [mkChannel 5 0 (some 1) "c"] [])) 1 = none ∧
    get_role_by_id (delete_guild (mkStore
      [mkGuild 1 "g1" [⟨10, 1, "r", 0⟩] [⟨100, 1, [10], none⟩]
        [mkChannel 5 0 (some 1) "c"] [],
       mkGuild 2 "g2" [] [] [mkChannel 6 0 (some 2) "d"] []] [])
      (mkGuild 1 "g1" [⟨10, 1, "r", 0⟩] [⟨100, 1, [10], none⟩]
        [mkChannel 5 0 (some 1) "c"] [])) 1 10 = none ∧
    get_member_by_id (delete_guild (mkStore
      [mkGuild 1 "g1" [⟨10, 1, "r", 0⟩] [⟨100, 1, [10], none⟩]
        [mkChannel 5 0 (some 1) "c"] [],
       mkGuild 2 "g2" [] [] [mkChannel 6 0 (some 2) "d"] []] [])
      (mkGuild 1 "g1" [⟨10, 1, "r", 0⟩] [⟨100, 1, [10], none⟩]
        [mkChannel 5 0 (some 1) "c"] [])) 100 1 = none ∧
    get_channel_by_id (delete_guild (mkStore
      [mkGuild 1 "g1" [⟨10, 1, "r", 0⟩] [⟨100, 1, [10], none⟩]
        [mkChannel 5 0 (some 1) "c"] [],
       mkGuild 2 "g2" [] [] [mkChannel 6 0 (some 2) "d"] []] [])
      (mkGuild 1 "g1" [⟨10, 1, "r", 0⟩] [⟨100, 1, [10], none⟩]
        [mkChannel 5 0 (some 1) "c"] [])) 5 = none := by
  have h := C9_delete_guild_cascade (mkStore
      [mkGuild 1 "g1" [⟨10, 1, "r", 0⟩] [⟨100, 1, [10], none⟩]
        [mkChannel 5 0 (some 1) "c"] [],
       mkGuild 2 "g2" [] [] [mkChannel 6 0 (some 2) "d"] []] [])
      (mkGuild 1 "g1" [⟨10, 1, "r", 0⟩] [⟨100, 1, [10], none⟩]
        [mkChannel 5 0 (some 1) "c"] []) 10 100 5
  exact ⟨h.1, h.2.1, h.2.2.1, h.2.2.2.2 (by decide) (by decide)⟩

end Hikari
